import Mathlib

/-!
Verification of the zkregex_fuzzer differential harness and input generators.

Shallow embedding of the Python sources under src/src/zkregex_fuzzer/:
harness.py (HarnessStatus, HarnessResult, harness), vinpgen.py and
invinpgen.py (bounded-retry input generation), dfa.py (random-walk string
synthesis, single-accept normalization), utils.py (check_if_string_is_valid),
runner/python.py (the reference matcher).  Randomness is modelled by explicit
choice streams; exceptions by Except / Option results.
-/

/-! ## Harness status and result (harness.py lines 21-41) -/

/-- The status enumeration exactly as `class HarnessStatus(Enum)` declares it
in harness.py lines 21-28: five members. -/
inductive HarnessStatus where
  | SUCCESS
  | INVALID_SEED
  | COMPILE_ERROR
  | RUN_ERROR
  | FAILED
  deriving DecidableEq, Repr

/-- The member names of the `HarnessStatus` enum, in declaration order
(harness.py lines 22-28). -/
def HarnessStatus.memberNames : List String :=
  ["SUCCESS", "INVALID_SEED", "COMPILE_ERROR", "RUN_ERROR", "FAILED"]

/-- Python attribute lookup `HarnessStatus.<name>`: `some` member when the
name is declared in the enum, `none` when the access raises AttributeError. -/
def HarnessStatus.ofName (n : String) : Option HarnessStatus :=
  if n = "SUCCESS" then some .SUCCESS
  else if n = "INVALID_SEED" then some .INVALID_SEED
  else if n = "COMPILE_ERROR" then some .COMPILE_ERROR
  else if n = "RUN_ERROR" then some .RUN_ERROR
  else if n = "FAILED" then some .FAILED
  else none

/-- The nine status names the spec lists for the harness result
(spec.md section 4.3). -/
def specStatusNames : List String :=
  ["SUCCESS", "INVALID_SEED", "COMPILE_ERROR", "RUN_ERROR", "FAILED",
   "SUBSTR_MISMATCH", "INPUT_GEN_TIMEOUT", "HARNESS_TIMEOUT", "REGEX_TIMEOUT"]

/-- Status attribute names accessed by `Stats.get_stats` (report.py lines
80-153): each comparison `result.status == HarnessStatus.<name>` evaluates the
attribute access. -/
def getStatsAccessedNames : List String :=
  ["SUCCESS", "FAILED", "COMPILE_ERROR", "RUN_ERROR", "INVALID_SEED",
   "INPUT_GEN_TIMEOUT", "HARNESS_TIMEOUT", "SUBSTR_MISMATCH", "REGEX_TIMEOUT"]

/-- Status attribute names the orchestrator `harness_runtime` accesses when a
generation or harness timeout fires (fuzzer.py lines 409 and 440). -/
def harnessRuntimeTimeoutNames : List String :=
  ["INPUT_GEN_TIMEOUT", "HARNESS_TIMEOUT"]

/-- The `@dataclass HarnessResult` (harness.py lines 31-41). -/
structure HarnessResult where
  regex : String
  inp_num : Nat
  oracle : Bool
  failed_inputs : List String
  status : HarnessStatus
  error_message : String := ""
  deriving DecidableEq, Repr

/-! ## Runner contract (runner/base_runner.py, runner/python.py)

A runner's observable behaviour: whether construction (which compiles the
regex) raises `RegexCompileError`, and for each input what `match` does:
raises `RegexRunError` or returns `(matched, extracted substring)`. -/

/-- Outcome of one `Runner.match(input)` call. -/
inductive RunOutcome where
  | err : String → RunOutcome
  | res : Bool → String → RunOutcome
  deriving DecidableEq, Repr

/-- The match verdict when the call did not raise. -/
def RunOutcome.verdict : RunOutcome → Option Bool
  | .err _ => none
  | .res b _ => some b

/-- A runner's behaviour as the harness observes it. -/
structure RunnerModel where
  compileError : Option String
  matchRun : String → RunOutcome

/-! ## The harness (harness.py lines 76-190) -/

/-- The per-input loop of `harness` (harness.py lines 130-190).  `acc` is the
`failed_inputs` list collected so far; `inputs` is the full input list the
final SUCCESS result reports (harness.py line 185). -/
def harnessLoop (primary secondary : RunnerModel) (regex : String)
    (inputs : List String) (oracle : Bool) :
    List String → List String → HarnessResult
  | acc, [] =>
      if acc.length > 0 then
        ⟨regex, inputs.length, oracle, acc, .FAILED, ""⟩
      else
        ⟨regex, inputs.length, oracle, inputs, .SUCCESS, ""⟩
  | acc, i :: rest =>
      match primary.matchRun i with
      | .err e => ⟨regex, inputs.length, oracle, [], .INVALID_SEED, e⟩
      | .res pstat _ =>
        if pstat ≠ oracle then
          ⟨regex, inputs.length, oracle, [], .INVALID_SEED, ""⟩
        else
          match secondary.matchRun i with
          | .err e => ⟨regex, inputs.length, oracle, [i], .RUN_ERROR, e⟩
          | .res sstat _ =>
            harnessLoop primary secondary regex inputs oracle
              (if sstat ≠ oracle then acc ++ [i] else acc) rest

/-- Python `harness(regex, primary_runner_cls, secondary_runner_cls, inputs, oracle,
kwargs)` (harness.py lines 76-190): constructing the primary runner raising
`RegexCompileError` gives INVALID_SEED; the secondary raising gives
COMPILE_ERROR; otherwise the inputs are scanned in order. -/
def harness (primary secondary : RunnerModel) (regex : String)
    (inputs : List String) (oracle : Bool) : HarnessResult :=
  match primary.compileError with
  | some e => ⟨regex, inputs.length, oracle, [], .INVALID_SEED, e⟩
  | none =>
    match secondary.compileError with
    | some e => ⟨regex, inputs.length, oracle, [], .COMPILE_ERROR, e⟩
    | none => harnessLoop primary secondary regex inputs oracle [] inputs

/-! ## Input generation (vinpgen.py, invinpgen.py)

`generate_unsafe()` results are modelled as a stream `List (Option String)`:
one element per call, `none` for "no candidate"; an exhausted stream also
yields `none`.  The duplicate counter `self._string_counts` is an association
list; exceptions are `Except GenErr`. -/

/-- The three retry-exhaustion exceptions (vinpgen.py lines 25-46). -/
inductive GenErr where
  | maxAttempts
  | tooManyConsecutive
  | tooManyRepeats
  deriving DecidableEq, Repr

abbrev StringCounts := List (String × Nat)

/-- Reading `self._string_counts[s]` (a `defaultdict(int)`). -/
def countOf (counts : StringCounts) (s : String) : Nat :=
  (counts.lookup s).getD 0

/-- The update `self._string_counts[s] += 1`. -/
def bumpCount (counts : StringCounts) (s : String) : StringCounts :=
  (s, countOf counts s + 1) :: counts

/-- One `generate_unsafe()` call drawn from the stream. -/
def popStream : List (Option String) → Option String × List (Option String)
  | [] => (none, [])
  | c :: rest => (c, rest)

/-- Python `ValidInputGenerator._generate` (vinpgen.py lines 62-110), with
`check = check_if_string_is_valid(self.regex, ·)`, `_max_attempts` as the
fuel (20 in the source), `_max_repeats = 3`, `_max_consecutive_failures = 3`.
Returns the result together with the remaining stream and counters. -/
def validGenerate (check : String → Bool) (maxRepeats maxConsec : Nat) :
    Nat → Nat → List (Option String) → StringCounts →
    Except GenErr String × List (Option String) × StringCounts
  | 0, _, stream, counts => (.error .maxAttempts, stream, counts)
  | aLeft + 1, consecFail, stream, counts =>
    let (cand, stream') := popStream stream
    match cand with
    | none =>
        if consecFail + 1 ≥ maxConsec then (.error .tooManyConsecutive, stream', counts)
        else validGenerate check maxRepeats maxConsec aLeft (consecFail + 1) stream' counts
    | some s =>
        if countOf counts s ≥ maxRepeats then (.error .tooManyRepeats, stream', counts)
        else if countOf counts s > 0 then
          validGenerate check maxRepeats maxConsec aLeft 0 stream' (bumpCount counts s)
        else if s.length ≤ 1 then
          validGenerate check maxRepeats maxConsec aLeft 0 stream' (bumpCount counts s)
        else if check s then (.ok s, stream', bumpCount counts s)
        else validGenerate check maxRepeats maxConsec aLeft 0 stream' (bumpCount counts s)

/-- Python `InvalidInputGenerator._generate` (invinpgen.py lines 35-73):
`string = self.generate_unsafe() or ""`, no minimum-length skip, success when
the check REJECTS the string, consecutive failures counted on accepted
(hence unusable) strings. -/
def invalidGenerate (check : String → Bool) (maxRepeats maxConsec : Nat) :
    Nat → Nat → List (Option String) → StringCounts →
    Except GenErr String × List (Option String) × StringCounts
  | 0, _, stream, counts => (.error .maxAttempts, stream, counts)
  | aLeft + 1, consecFail, stream, counts =>
    let (cand, stream') := popStream stream
    let s := cand.getD ""
    if countOf counts s ≥ maxRepeats then (.error .tooManyRepeats, stream', counts)
    else if countOf counts s > 0 then
      invalidGenerate check maxRepeats maxConsec aLeft consecFail stream' (bumpCount counts s)
    else if check s = false then (.ok s, stream', bumpCount counts s)
    else if consecFail + 1 ≥ maxConsec then
      (.error .tooManyConsecutive, stream', bumpCount counts s)
    else invalidGenerate check maxRepeats maxConsec aLeft (consecFail + 1) stream' (bumpCount counts s)

/-- The remaining stream never grows. -/
theorem validGenerate_stream_le (check : String → Bool) (maxRepeats maxConsec : Nat) :
    ∀ (fuel consecFail : Nat) (stream : List (Option String)) (counts : StringCounts),
      (validGenerate check maxRepeats maxConsec fuel consecFail stream counts).2.1.length
        ≤ stream.length := by
  intro fuel
  induction fuel with
  | zero => intro _ _ _; simp [validGenerate]
  | succ aLeft ih =>
    intro consecFail stream counts
    cases stream with
    | nil =>
      simp only [validGenerate, popStream]
      split
      · simp
      · have h := ih (consecFail + 1) [] counts
        simpa using h
    | cons c rest =>
      simp only [validGenerate, popStream]
      cases c with
      | none =>
        simp only
        split
        · simp
        · exact le_trans (ih _ _ _) (Nat.le_succ _)
      | some s =>
        simp only
        split
        · simp
        · split
          · exact le_trans (ih _ _ _) (Nat.le_succ _)
          · split
            · exact le_trans (ih _ _ _) (Nat.le_succ _)
            · split
              · simp
              · exact le_trans (ih _ _ _) (Nat.le_succ _)

/-- The remaining stream never grows (invalid variant). -/
theorem invalidGenerate_stream_le (check : String → Bool) (maxRepeats maxConsec : Nat) :
    ∀ (fuel consecFail : Nat) (stream : List (Option String)) (counts : StringCounts),
      (invalidGenerate check maxRepeats maxConsec fuel consecFail stream counts).2.1.length
        ≤ stream.length := by
  intro fuel
  induction fuel with
  | zero => intro _ _ _; simp [invalidGenerate]
  | succ aLeft ih =>
    intro consecFail stream counts
    cases stream with
    | nil =>
      simp only [invalidGenerate, popStream]
      split
      · simp
      · split
        · have h := ih consecFail [] (bumpCount counts ((none : Option String).getD ""))
          simpa using h
        · split
          · simp
          · split
            · simp
            · have h := ih (consecFail + 1) []
                (bumpCount counts ((none : Option String).getD ""))
              simpa using h
    | cons c rest =>
      simp only [invalidGenerate, popStream]
      split
      · simp
      · split
        · exact le_trans (ih _ _ _) (Nat.le_succ _)
        · split
          · simp
          · split
            · simp
            · exact le_trans (ih _ _ _) (Nat.le_succ _)


/-- What a successful `ValidInputGenerator._generate` guarantees: the string
passed the oracle check (vinpgen.py line 105), is longer than one character
(line 101), and at least one stream element was consumed. -/
theorem validGenerate_ok_spec (check : String → Bool) (maxRepeats maxConsec : Nat) :
    ∀ (fuel consecFail : Nat) (stream stream' : List (Option String))
      (counts counts' : StringCounts) (s : String),
      validGenerate check maxRepeats maxConsec fuel consecFail stream counts
        = (.ok s, stream', counts') →
      check s = true ∧ 1 < s.length ∧ stream'.length < stream.length := by
  intro fuel
  induction fuel with
  | zero => intro _ _ _ _ _ _ h; simp [validGenerate] at h
  | succ aLeft ih =>
    intro consecFail stream stream' counts counts' s h
    cases stream with
    | nil =>
      simp only [validGenerate, popStream] at h
      split at h
      · simp at h
      · exact ih _ _ _ _ _ _ h
    | cons c rest =>
      simp only [validGenerate, popStream] at h
      cases c with
      | none =>
        simp only at h
        split at h
        · simp at h
        · have := ih _ _ _ _ _ _ h
          exact ⟨this.1, this.2.1, lt_trans this.2.2 (Nat.lt_succ_self _)⟩
      | some t =>
        simp only at h
        split at h
        · simp at h
        · split at h
          · have := ih _ _ _ _ _ _ h
            exact ⟨this.1, this.2.1, lt_trans this.2.2 (Nat.lt_succ_self _)⟩
          · split at h
            · have := ih _ _ _ _ _ _ h
              exact ⟨this.1, this.2.1, lt_trans this.2.2 (Nat.lt_succ_self _)⟩
            · split at h
              · rename_i hlen hcheck
                simp only [Prod.mk.injEq, Except.ok.injEq] at h
                obtain ⟨hs, hst, _⟩ := h
                subst hs hst
                exact ⟨hcheck, by omega, Nat.lt_succ_self _⟩
              · have := ih _ _ _ _ _ _ h
                exact ⟨this.1, this.2.1, lt_trans this.2.2 (Nat.lt_succ_self _)⟩

/-- What a successful `InvalidInputGenerator._generate` guarantees: the
string fails the oracle check (invinpgen.py line 62), and unless it is the
empty default (`generate_unsafe() or ""`), a stream element was consumed. -/
theorem invalidGenerate_ok_spec (check : String → Bool) (maxRepeats maxConsec : Nat) :
    ∀ (fuel consecFail : Nat) (stream stream' : List (Option String))
      (counts counts' : StringCounts) (s : String),
      invalidGenerate check maxRepeats maxConsec fuel consecFail stream counts
        = (.ok s, stream', counts') →
      check s = false ∧ (s ≠ "" → stream'.length < stream.length) := by
  intro fuel
  induction fuel with
  | zero => intro _ _ _ _ _ _ h; simp [invalidGenerate] at h
  | succ aLeft ih =>
    intro consecFail stream stream' counts counts' s h
    cases stream with
    | nil =>
      simp only [invalidGenerate, popStream] at h
      split at h
      · simp at h
      · split at h
        · exact ih _ _ _ _ _ _ h
        · split at h
          · rename_i hchk
            simp only [Prod.mk.injEq, Except.ok.injEq] at h
            obtain ⟨hs, hst, _⟩ := h
            subst hst
            refine ⟨by simpa [← hs] using hchk, ?_⟩
            intro hne
            exact absurd hs.symm hne
          · split at h
            · simp at h
            · exact ih _ _ _ _ _ _ h
    | cons c rest =>
      simp only [invalidGenerate, popStream] at h
      split at h
      · simp at h
      · split at h
        · have := ih _ _ _ _ _ _ h
          exact ⟨this.1, fun hne => lt_trans (this.2 hne) (Nat.lt_succ_self _)⟩
        · split at h
          · rename_i hchk
            simp only [Prod.mk.injEq, Except.ok.injEq] at h
            obtain ⟨hs, hst, _⟩ := h
            subst hst
            exact ⟨by simpa [← hs] using hchk, fun _ => Nat.lt_succ_self _⟩
          · split at h
            · simp at h
            · have := ih _ _ _ _ _ _ h
              exact ⟨this.1, fun hne => lt_trans (this.2 hne) (Nat.lt_succ_self _)⟩

/-- One `self._generate()` call as `generate_many` sees it, together with the
two facts about stream consumption the loop's termination rests on. -/
structure GenFn where
  run : List (Option String) → StringCounts →
    Except GenErr String × List (Option String) × StringCounts
  stream_le : ∀ stream counts, (run stream counts).2.1.length ≤ stream.length
  ok_consumes : ∀ stream counts s stream' counts',
    run stream counts = (.ok s, stream', counts') → s ≠ "" →
    stream'.length < stream.length

/-- The `ValidInputGenerator._generate` call as a `GenFn`: each call starts with a
fresh attempt budget and zero consecutive failures, sharing the duplicate
counter. -/
def validGenFn (check : String → Bool) (maxRepeats maxConsec maxAttempts : Nat) : GenFn where
  run stream counts := validGenerate check maxRepeats maxConsec maxAttempts 0 stream counts
  stream_le stream counts := validGenerate_stream_le check maxRepeats maxConsec _ _ _ _
  ok_consumes stream counts s stream' counts' h _ :=
    (validGenerate_ok_spec check maxRepeats maxConsec _ _ _ _ _ _ _ h).2.2

/-- The `InvalidInputGenerator._generate` call as a `GenFn`. -/
def invalidGenFn (check : String → Bool) (maxRepeats maxConsec maxAttempts : Nat) : GenFn where
  run stream counts := invalidGenerate check maxRepeats maxConsec maxAttempts 0 stream counts
  stream_le stream counts := invalidGenerate_stream_le check maxRepeats maxConsec _ _ _ _
  ok_consumes stream counts s stream' counts' h hne :=
    (invalidGenerate_ok_spec check maxRepeats maxConsec _ _ _ _ _ _ _ h).2 hne

/-- How the `generate_many` loop ended (vinpgen.py lines 130-163 /
invinpgen.py lines 93-128): the while-condition turned false because `n`
strings were collected or the total-attempt ceiling was hit, or a `break`
fired on too many consecutive failures or on a repeated string. -/
inductive GenExit where
  | collected
  | attemptsExhausted
  | tooManyConsecutive
  | tooManyRepeats
  deriving DecidableEq, Repr

/-- The `while` loop of `generate_many(n, max_input_size)` (vinpgen.py lines
130-163, invinpgen.py lines 93-128).  `aLeft` is
`max_total_attempts - attempts`; the oversized-string `continue` skips the
`attempts += 1` at the loop's end, so it keeps `aLeft` and instead consumes
stream elements. -/
def generateManyLoop (gen : GenFn) (maxConsec n maxSize : Nat) :
    Nat → Nat → List (Option String) → StringCounts → List String →
    List String × GenExit
  | aLeft, consecFail, stream, counts, acc =>
    if n ≤ acc.length then (acc, .collected)
    else
      match aLeft with
      | 0 => (acc, .attemptsExhausted)
      | aLeft' + 1 =>
        match hgen : gen.run stream counts with
        | (.ok s, stream', counts') =>
          if h : maxSize ≠ 0 ∧ maxSize < s.length then
            generateManyLoop gen maxConsec n maxSize (aLeft' + 1) consecFail stream' counts' acc
          else
            generateManyLoop gen maxConsec n maxSize aLeft' 0 stream' counts' (acc ++ [s])
        | (.error .tooManyRepeats, _, _) => (acc, .tooManyRepeats)
        | (.error .maxAttempts, stream', counts') =>
          if consecFail + 1 ≥ maxConsec then (acc, .tooManyConsecutive)
          else generateManyLoop gen maxConsec n maxSize aLeft' (consecFail + 1) stream' counts' acc
        | (.error .tooManyConsecutive, stream', counts') =>
          if consecFail + 1 ≥ maxConsec then (acc, .tooManyConsecutive)
          else generateManyLoop gen maxConsec n maxSize aLeft' (consecFail + 1) stream' counts' acc
  termination_by aLeft _ stream _ _ => stream.length + aLeft
  decreasing_by
  · have hlt : stream'.length < stream.length := by
      refine gen.ok_consumes stream counts s stream' counts' hgen ?_
      intro hs
      subst hs
      exact absurd h.2 (by simp)
    omega
  all_goals
    have hle := gen.stream_le stream counts
    rw [hgen] at hle
    simp only at hle
    omega

/-- Python `generate_many(n, max_input_size)` (vinpgen.py lines 112-171,
invinpgen.py lines 75-136): runs the loop with
`max_total_attempts = n + self._max_attempts`, then raises `ValueError`
exactly when no string at all was produced (vinpgen.py line 165,
invinpgen.py line 130); otherwise the partial or full list is returned
silently.  Also reports how the loop exited. -/
def generate_many (gen : GenFn) (maxConsec maxAttempts n maxSize : Nat)
    (stream : List (Option String)) : Except String (List String) × GenExit :=
  let (l, ex) := generateManyLoop gen maxConsec n maxSize (n + maxAttempts) 0 stream [] []
  (if l.isEmpty then .error "Failed to generate any input for regex" else .ok l, ex)

theorem generateManyLoop_collected (gen : GenFn) (maxConsec n maxSize aLeft consecFail : Nat)
    (stream : List (Option String)) (counts : StringCounts) (acc : List String)
    (h : n ≤ acc.length) :
    generateManyLoop gen maxConsec n maxSize aLeft consecFail stream counts acc
      = (acc, .collected) := by
  rw [generateManyLoop.eq_def]
  simp only [if_pos h]

theorem generateManyLoop_zero (gen : GenFn) (maxConsec n maxSize consecFail : Nat)
    (stream : List (Option String)) (counts : StringCounts) (acc : List String)
    (h : ¬ n ≤ acc.length) :
    generateManyLoop gen maxConsec n maxSize 0 consecFail stream counts acc
      = (acc, .attemptsExhausted) := by
  rw [generateManyLoop.eq_def]
  simp only [if_neg h]

theorem generateManyLoop_succ (gen : GenFn) (maxConsec n maxSize aLeft consecFail : Nat)
    (stream : List (Option String)) (counts : StringCounts) (acc : List String)
    (h : ¬ n ≤ acc.length) :
    generateManyLoop gen maxConsec n maxSize (aLeft + 1) consecFail stream counts acc
      = match gen.run stream counts with
        | (.ok s, stream', counts') =>
          if maxSize ≠ 0 ∧ maxSize < s.length then
            generateManyLoop gen maxConsec n maxSize (aLeft + 1) consecFail stream' counts' acc
          else
            generateManyLoop gen maxConsec n maxSize aLeft 0 stream' counts' (acc ++ [s])
        | (.error .tooManyRepeats, _, _) => (acc, .tooManyRepeats)
        | (.error .maxAttempts, stream', counts') =>
          if consecFail + 1 ≥ maxConsec then (acc, .tooManyConsecutive)
          else generateManyLoop gen maxConsec n maxSize aLeft (consecFail + 1) stream' counts' acc
        | (.error .tooManyConsecutive, stream', counts') =>
          if consecFail + 1 ≥ maxConsec then (acc, .tooManyConsecutive)
          else generateManyLoop gen maxConsec n maxSize aLeft (consecFail + 1) stream' counts' acc
      := by
  conv_lhs => rw [generateManyLoop.eq_def]
  simp only [if_neg h]
  split
  · rename_i heq
    rw [heq]
    simp only [dite_eq_ite]
  · rename_i heq
    rw [heq]
  · rename_i heq
    rw [heq]
  · rename_i heq
    rw [heq]

/-- The loop never collects more than `n` strings. -/
theorem generateManyLoop_length_le (gen : GenFn) (maxConsec n maxSize : Nat) :
    ∀ (aLeft consecFail : Nat) (stream : List (Option String)) (counts : StringCounts)
      (acc : List String), acc.length ≤ n →
      (generateManyLoop gen maxConsec n maxSize aLeft consecFail stream counts acc).1.length
        ≤ n := by
  intro aLeft consecFail stream counts acc
  induction aLeft, consecFail, stream, counts, acc
    using generateManyLoop.induct gen maxConsec n maxSize with
  | case1 aLeft consecFail stream counts acc hle =>
    intro hacc
    rw [generateManyLoop_collected gen maxConsec n maxSize _ _ _ _ _ hle]
    exact hacc
  | case2 consecFail stream counts acc hnle =>
    intro hacc
    rw [generateManyLoop_zero gen maxConsec n maxSize _ _ _ _ hnle]
    exact hacc
  | case3 consecFail stream counts acc hnle aLeft' s stream' counts' hg hcond ih =>
    intro hacc
    rw [generateManyLoop_succ gen maxConsec n maxSize _ _ _ _ _ hnle]
    simp only [hg, if_pos hcond]
    exact ih hacc
  | case4 consecFail stream counts acc hnle aLeft' s stream' counts' hg hcond ih =>
    intro hacc
    rw [generateManyLoop_succ gen maxConsec n maxSize _ _ _ _ _ hnle]
    simp only [hg, if_neg hcond]
    refine ih ?_
    simp only [List.length_append, List.length_cons, List.length_nil]
    omega
  | case5 consecFail stream counts acc hnle aLeft' stream' counts' hg =>
    intro hacc
    rw [generateManyLoop_succ gen maxConsec n maxSize _ _ _ _ _ hnle]
    simp only [hg]
    exact hacc
  | case6 consecFail stream counts acc hnle aLeft' stream' counts' hg hc =>
    intro hacc
    rw [generateManyLoop_succ gen maxConsec n maxSize _ _ _ _ _ hnle]
    simp only [hg, if_pos hc]
    exact hacc
  | case7 consecFail stream counts acc hnle aLeft' stream' counts' hg hc ih =>
    intro hacc
    rw [generateManyLoop_succ gen maxConsec n maxSize _ _ _ _ _ hnle]
    simp only [hg, if_neg hc]
    exact ih hacc
  | case8 consecFail stream counts acc hnle aLeft' stream' counts' hg hc =>
    intro hacc
    rw [generateManyLoop_succ gen maxConsec n maxSize _ _ _ _ _ hnle]
    simp only [hg, if_pos hc]
    exact hacc
  | case9 consecFail stream counts acc hnle aLeft' stream' counts' hg hc ih =>
    intro hacc
    rw [generateManyLoop_succ gen maxConsec n maxSize _ _ _ _ _ hnle]
    simp only [hg, if_neg hc]
    exact ih hacc

/-- Every string the loop adds to the accumulator came from a successful
`_generate` call and passed the size filter. -/
theorem generateManyLoop_mem (gen : GenFn) (maxConsec n maxSize : Nat) (P : String → Prop)
    (hP : ∀ stream counts s stream' counts',
      gen.run stream counts = (.ok s, stream', counts') →
      ¬ (maxSize ≠ 0 ∧ maxSize < s.length) → P s) :
    ∀ (aLeft consecFail : Nat) (stream : List (Option String)) (counts : StringCounts)
      (acc : List String), (∀ x ∈ acc, P x) →
      ∀ x ∈ (generateManyLoop gen maxConsec n maxSize aLeft consecFail stream counts acc).1,
        P x := by
  intro aLeft consecFail stream counts acc
  induction aLeft, consecFail, stream, counts, acc
    using generateManyLoop.induct gen maxConsec n maxSize with
  | case1 aLeft consecFail stream counts acc hle =>
    intro hacc
    rw [generateManyLoop_collected gen maxConsec n maxSize _ _ _ _ _ hle]
    exact hacc
  | case2 consecFail stream counts acc hnle =>
    intro hacc
    rw [generateManyLoop_zero gen maxConsec n maxSize _ _ _ _ hnle]
    exact hacc
  | case3 consecFail stream counts acc hnle aLeft' s stream' counts' hg hcond ih =>
    intro hacc
    rw [generateManyLoop_succ gen maxConsec n maxSize _ _ _ _ _ hnle]
    simp only [hg, if_pos hcond]
    exact ih hacc
  | case4 consecFail stream counts acc hnle aLeft' s stream' counts' hg hcond ih =>
    intro hacc
    rw [generateManyLoop_succ gen maxConsec n maxSize _ _ _ _ _ hnle]
    simp only [hg, if_neg hcond]
    refine ih ?_
    intro x hx
    rcases List.mem_append.1 hx with hx | hx
    · exact hacc x hx
    · rcases List.mem_singleton.1 hx with rfl
      exact hP stream counts x stream' counts' hg hcond
  | case5 consecFail stream counts acc hnle aLeft' stream' counts' hg =>
    intro hacc
    rw [generateManyLoop_succ gen maxConsec n maxSize _ _ _ _ _ hnle]
    simp only [hg]
    exact hacc
  | case6 consecFail stream counts acc hnle aLeft' stream' counts' hg hc =>
    intro hacc
    rw [generateManyLoop_succ gen maxConsec n maxSize _ _ _ _ _ hnle]
    simp only [hg, if_pos hc]
    exact hacc
  | case7 consecFail stream counts acc hnle aLeft' stream' counts' hg hc ih =>
    intro hacc
    rw [generateManyLoop_succ gen maxConsec n maxSize _ _ _ _ _ hnle]
    simp only [hg, if_neg hc]
    exact ih hacc
  | case8 consecFail stream counts acc hnle aLeft' stream' counts' hg hc =>
    intro hacc
    rw [generateManyLoop_succ gen maxConsec n maxSize _ _ _ _ _ hnle]
    simp only [hg, if_pos hc]
    exact hacc
  | case9 consecFail stream counts acc hnle aLeft' stream' counts' hg hc ih =>
    intro hacc
    rw [generateManyLoop_succ gen maxConsec n maxSize _ _ _ _ _ hnle]
    simp only [hg, if_neg hc]
    exact ih hacc

/-- The loop reports `collected` only when it holds `n` strings: a shorter
result always stems from the attempt ceiling or one of the two breaks. -/
theorem generateManyLoop_short_exit (gen : GenFn) (maxConsec n maxSize : Nat) :
    ∀ (aLeft consecFail : Nat) (stream : List (Option String)) (counts : StringCounts)
      (acc : List String),
      (generateManyLoop gen maxConsec n maxSize aLeft consecFail stream counts acc).2
          = GenExit.collected →
      n ≤ (generateManyLoop gen maxConsec n maxSize aLeft consecFail stream counts acc).1.length := by
  intro aLeft consecFail stream counts acc
  induction aLeft, consecFail, stream, counts, acc
    using generateManyLoop.induct gen maxConsec n maxSize with
  | case1 aLeft consecFail stream counts acc hle =>
    rw [generateManyLoop_collected gen maxConsec n maxSize _ _ _ _ _ hle]
    intro _
    exact hle
  | case2 consecFail stream counts acc hnle =>
    rw [generateManyLoop_zero gen maxConsec n maxSize _ _ _ _ hnle]
    intro hcol
    simp at hcol
  | case3 consecFail stream counts acc hnle aLeft' s stream' counts' hg hcond ih =>
    rw [generateManyLoop_succ gen maxConsec n maxSize _ _ _ _ _ hnle]
    simp only [hg, if_pos hcond]
    exact ih
  | case4 consecFail stream counts acc hnle aLeft' s stream' counts' hg hcond ih =>
    rw [generateManyLoop_succ gen maxConsec n maxSize _ _ _ _ _ hnle]
    simp only [hg, if_neg hcond]
    exact ih
  | case5 consecFail stream counts acc hnle aLeft' stream' counts' hg =>
    rw [generateManyLoop_succ gen maxConsec n maxSize _ _ _ _ _ hnle]
    simp only [hg]
    intro hcol
    simp at hcol
  | case6 consecFail stream counts acc hnle aLeft' stream' counts' hg hc =>
    rw [generateManyLoop_succ gen maxConsec n maxSize _ _ _ _ _ hnle]
    simp only [hg, if_pos hc]
    intro hcol
    simp at hcol
  | case7 consecFail stream counts acc hnle aLeft' stream' counts' hg hc ih =>
    rw [generateManyLoop_succ gen maxConsec n maxSize _ _ _ _ _ hnle]
    simp only [hg, if_neg hc]
    exact ih
  | case8 consecFail stream counts acc hnle aLeft' stream' counts' hg hc =>
    rw [generateManyLoop_succ gen maxConsec n maxSize _ _ _ _ _ hnle]
    simp only [hg, if_pos hc]
    intro hcol
    simp at hcol
  | case9 consecFail stream counts acc hnle aLeft' stream' counts' hg hc ih =>
    rw [generateManyLoop_succ gen maxConsec n maxSize _ _ _ _ _ hnle]
    simp only [hg, if_neg hc]
    exact ih

/-! ## The reference matcher (utils.py lines 116-123, runner/python.py lines 27-37)

`check_if_string_is_valid` decides with `len(re.findall(regex, string)) > 0`
(a search anywhere in the string), while the primary runner the harness uses,
`PythonReRunner.match`, decides with `re.match` (anchored at the start).  For
a metacharacter-free (literal) pattern these are exactly substring occurrence
and prefix match, embedded here over character lists. -/

/-- The pattern matches at the very start of the text. -/
def listStartsWith : List Char → List Char → Bool
  | [], _ => true
  | _ :: _, [] => false
  | p :: ps, c :: cs => p = c && listStartsWith ps cs

/-- The pattern matches somewhere in the text. -/
def listOccurs (pat : List Char) : List Char → Bool
  | [] => listStartsWith pat []
  | c :: cs => listStartsWith pat (c :: cs) || listOccurs pat cs

/-- Python `check_if_string_is_valid(regex, string)` (utils.py lines 116-123) for a
literal pattern: `len(re.findall(regex, string)) > 0`, i.e. the pattern
occurs somewhere in the string. -/
def check_if_string_is_valid_lit (pat s : String) : Bool :=
  listOccurs pat.data s.data

/-- The `PythonReRunner.match(input)` verdict (runner/python.py lines 27-37) for
a literal pattern: `re.match` succeeds iff the pattern matches at the start
of the input. -/
def pythonReMatch_lit (pat s : String) : Bool :=
  listStartsWith pat.data s.data

/-- A start-anchored match is in particular an occurrence, so a string the
primary runner accepts always passes `check_if_string_is_valid`; the converse
direction fails (the counterexample for C3). -/
theorem pythonReMatch_lit_implies_check (pat s : String) :
    pythonReMatch_lit pat s = true → check_if_string_is_valid_lit pat s = true := by
  unfold pythonReMatch_lit check_if_string_is_valid_lit
  cases hs : s.data with
  | nil => intro h; simpa [listOccurs] using h
  | cons c cs => intro h; simp [listOccurs, h]

/-! ## The automaton engine (dfa.py)

NFAs as automata-lib represents them: states, an initial state, final states,
per-state symbol transitions and lambda (epsilon) transitions (the `''` key
of the transition dict).  `random.random()` comparisons are drawn from a coin
stream and `random.choice`/`random.choices` picks from an index stream (the
density re-weighting of dfa.py lines 437-478 only biases which index is
drawn, so an arbitrary index stream covers every execution). -/

structure NFAModel where
  states : List Nat
  initial_state : Nat
  final_states : List Nat
  transitions : Nat → List (Char × List Nat)
  lambdaTransitions : Nat → List Nat

/-- One expansion step of the lambda closure. -/
def epsStep (m : NFAModel) (cur : List Nat) : List Nat :=
  (cur ++ cur.flatMap m.lambdaTransitions).dedup

def epsClosureAux (m : NFAModel) : Nat → List Nat → List Nat
  | 0, cur => cur
  | fuel + 1, cur => epsClosureAux m fuel (epsStep m cur)

/-- Python `nfa._get_lambda_closures()[s]`. -/
def lambdaClosure (m : NFAModel) (s : Nat) : List Nat :=
  epsClosureAux m m.states.length [s]

/-- States reachable from `s` on symbol `c` (no closure). -/
def symbolTargets (m : NFAModel) (s : Nat) (c : Char) : List Nat :=
  ((m.transitions s).filter (fun p => p.1 = c)).flatMap (fun p => p.2)

/-- One consuming step of the subset simulation, closed under lambda. -/
def moveSet (m : NFAModel) (cur : List Nat) (c : Char) : List Nat :=
  ((cur.flatMap (fun s => symbolTargets m s c)).flatMap (fun t => lambdaClosure m t)).dedup

/-- Does the current state set contain a final state
(`not current_states.isdisjoint(nfa.final_states)`)? -/
def inFinal (m : NFAModel) (cur : List Nat) : Bool :=
  cur.any (fun s => m.final_states.contains s)

def acceptsFrom (m : NFAModel) : List Nat → List Char → Bool
  | cur, [] => inFinal m cur
  | cur, c :: cs => acceptsFrom m (moveSet m cur c) cs

/-- Python `nfa.accepts_input(result)`: standard NFA acceptance by subset
simulation from the lambda closure of the initial state. -/
def nfaAccepts (m : NFAModel) (s : String) : Bool :=
  acceptsFrom m (lambdaClosure m m.initial_state) s.data

/-- One step of the reverse breadth-first traversal of dfa.py lines 384-410:
add every state with a (symbol or lambda) edge into the set. -/
def reachToFinalStep (m : NFAModel) (acc : List Nat) : List Nat :=
  (acc ++ m.states.filter (fun s =>
      (m.transitions s).any (fun p => p.2.any (fun t => acc.contains t)) ||
      (m.lambdaTransitions s).any (fun t => acc.contains t))).dedup

def reachToFinalAux (m : NFAModel) : Nat → List Nat → List Nat
  | 0, acc => acc
  | fuel + 1, acc => reachToFinalAux m fuel (reachToFinalStep m acc)

/-- The set `reachable_to_final` (dfa.py lines 384-410): the states from which an
accepting state remains reachable, by reverse BFS seeded at the final
states. -/
def reachToFinal (m : NFAModel) : List Nat :=
  reachToFinalAux m m.states.length m.final_states

/-- The randomness a walk consumes: coin flips for the
`random.random() < p` comparisons and indices for the
`random.choice`/`random.choices` picks. -/
structure WalkRng where
  coins : List Bool
  choices : List Nat

def takeCoin : WalkRng → Bool × WalkRng
  | ⟨[], cs⟩ => (false, ⟨[], cs⟩)
  | ⟨b :: bs, cs⟩ => (b, ⟨bs, cs⟩)

def takeChoice : WalkRng → Nat × WalkRng
  | ⟨bs, []⟩ => (0, ⟨bs, []⟩)
  | ⟨bs, c :: cs⟩ => (c, ⟨bs, cs⟩)

/-- The list `possible_moves` (dfa.py lines 421-429): symbol/destination pairs from
the current state set, skipping lambda transitions, and keeping only
destinations in `reachable_to_final` when `direct_match` is set. -/
def possibleMoves (m : NFAModel) (direct : Bool) (reach : List Nat)
    (cur : List Nat) : List (Char × Nat) :=
  cur.flatMap (fun s =>
    (m.transitions s).flatMap (fun p =>
      (p.2.filter (fun ns => !direct || reach.contains ns)).map (fun ns => (p.1, ns))))

/-- The inner stepping loop of one attempt (dfa.py lines 419-494), with the
hard step ceiling `max_length = 500` as fuel: pick a move, append its symbol,
close under lambda, and possibly stop early in a final state (probability
0.3, or 0.9 once `wanted_length` is reached). -/
def walkSteps (m : NFAModel) (direct : Bool) (reach : List Nat) (wanted : Nat) :
    Nat → List Nat → List Char → WalkRng → List Char × WalkRng
  | 0, _, result, rng => (result, rng)
  | fuel + 1, cur, result, rng =>
    let moves := possibleMoves m direct reach cur
    if moves.isEmpty then (result, rng)
    else
      let (idx, rng1) := takeChoice rng
      let mv := moves.getD (idx % moves.length) (' ', 0)
      let result1 := result ++ [mv.1]
      let cur1 := lambdaClosure m mv.2
      if inFinal m cur1 then
        let (stop1, rng2) := takeCoin rng1
        if stop1 then (result1, rng2)
        else if wanted ≤ result1.length then
          let (stop2, rng3) := takeCoin rng2
          if stop2 then (result1, rng3)
          else walkSteps m direct reach wanted fuel cur1 result1 rng3
        else walkSteps m direct reach wanted fuel cur1 result1 rng2
      else walkSteps m direct reach wanted fuel cur1 result1 rng1

/-- The attempt loop (dfa.py lines 413-504, `max_attempts = 5`): each attempt
re-walks from the initial closure, returns the walked string only if
`nfa.accepts_input` accepts it, and after the last failed attempt raises
`ValueError`. -/
def walkAttempts (m : NFAModel) (direct : Bool) (reach : List Nat) (wanted : Nat) :
    Nat → WalkRng → Except String String
  | 0, _ => .error "Failed to generate a string that the NFA accepts"
  | k + 1, rng =>
    let (chars, rng') :=
      walkSteps m direct reach wanted 500 (lambdaClosure m m.initial_state) [] rng
    let result : String := ⟨chars⟩
    if nfaAccepts m result then .ok result
    else walkAttempts m direct reach wanted k rng'

/-- Python `dfa_string_matching(regex, wanted_length, direct_match)` (dfa.py lines
354-504) from the NFA onward (`NFA.from_regex` is the external automata-lib):
possibly return `""` straight away when the initial closure is accepting
(probability 0.2, line 380), otherwise precompute reachability and run up to
five attempts. -/
def dfa_string_matching (m : NFAModel) (wanted : Nat) (direct : Bool)
    (rng : WalkRng) : Except String String :=
  let start := lambdaClosure m m.initial_state
  let (early, rng1) := if inFinal m start then takeCoin rng else (false, rng)
  if early then .ok ""
  else
    let reach := if direct then reachToFinal m else []
    walkAttempts m direct reach wanted 5 rng1

/-- Every string an attempt returns passed the final `nfa.accepts_input`
check (dfa.py line 497). -/
theorem walkAttempts_ok (m : NFAModel) (direct : Bool) (reach : List Nat) (wanted : Nat) :
    ∀ (k : Nat) (rng : WalkRng) (s : String),
      walkAttempts m direct reach wanted k rng = .ok s → nfaAccepts m s = true := by
  intro k
  induction k with
  | zero => intro rng s h; simp [walkAttempts] at h
  | succ k ih =>
    intro rng s h
    simp only [walkAttempts] at h
    split at h
    · rename_i hacc
      injection h with h2
      subst h2
      exact hacc
    · exact ih _ _ h

/-- Accepting the empty string is exactly having a final state in the
initial lambda closure. -/
theorem nfaAccepts_empty (m : NFAModel) :
    nfaAccepts m "" = inFinal m (lambdaClosure m m.initial_state) := rfl

/-! ## Single-accept normalization

Modelled from the spec: `transform_dfa_to_single_accepting_state(dfa,
strategy)` with strategies `pick_one`, `new_dummy` and `merge` is imported by
tests/test_dfa.py (line 8) but absent from src/src/zkregex_fuzzer/dfa.py,
which only has the strategy-less `transform_dfa_to_single_final_state`.  The
three strategies below follow spec.md section 4.1 ("Single-accept
normalization"). -/

structure DFAModel where
  states : List Nat
  input_symbols : List Char
  transitions : Nat → Char → Option Nat
  initial_state : Nat
  final_states : List Nat

inductive NormalizeStrategy where
  | pick_one
  | new_dummy
  | merge
  deriving DecidableEq, Repr

/-- Modelled from the spec: `transform_dfa_to_single_accepting_state(dfa,
strategy)` (spec.md section 4.1; the function is missing from src/).
`choice` stands for the uniformly random picks.
* `pick_one`: one accepting state becomes the sole accept, transitions into
  the other original accepting states are redirected to it, and the other
  non-initial originals are dropped.
* `new_dummy`: a fresh terminal accepting state with no outgoing
  transitions; transitions into any original accepting state go to it; the
  originals are dropped unless initial.
* `merge`: all accepting states collapse into one whose outgoing transitions
  take the first-found destination per symbol; the initial state's identity
  is reused when it is itself accepting. -/
def transform_dfa_to_single_accepting_state (d : DFAModel)
    (strategy : NormalizeStrategy) (choice : Nat) : DFAModel :=
  match strategy with
  | .pick_one =>
    let chosen := d.final_states.getD (choice % d.final_states.length) d.initial_state
    let redirect := fun t => if t ∈ d.final_states ∧ t ≠ chosen then chosen else t
    { states := d.states.filter
        (fun s => !(s ∈ d.final_states ∧ s ≠ chosen ∧ s ≠ d.initial_state : Bool))
      input_symbols := d.input_symbols
      transitions := fun s c => (d.transitions s c).map redirect
      initial_state := d.initial_state
      final_states := [chosen] }
  | .new_dummy =>
    let dummy := d.states.foldr max 0 + 1
    { states := d.states.filter
        (fun s => !(s ∈ d.final_states ∧ s ≠ d.initial_state : Bool)) ++ [dummy]
      input_symbols := d.input_symbols
      transitions := fun s c =>
        if s = dummy then none
        else (d.transitions s c).map (fun t => if t ∈ d.final_states then dummy else t)
      initial_state := d.initial_state
      final_states := [dummy] }
  | .merge =>
    let merged :=
      if d.initial_state ∈ d.final_states then d.initial_state
      else d.final_states.getD 0 d.initial_state
    let redirect := fun t => if t ∈ d.final_states then merged else t
    { states := d.states.filter (fun s => !(s ∈ d.final_states ∧ s ≠ merged : Bool))
      input_symbols := d.input_symbols
      transitions := fun s c =>
        if s = merged then
          ((d.final_states.filterMap (fun f => d.transitions f c)).head?).map redirect
        else (d.transitions s c).map redirect
      initial_state := d.initial_state
      final_states := [merged] }

/-! ## The mutation-based invalid generator (invinpgen.py lines 139-186) -/

/-- The inner per-character loop of `MutationBasedGenerator._mutate_input`
(invinpgen.py lines 162-174) over the index list `range(len(invalid_input))`.
The expression `(1 / len(invalid_input)) * 2` is evaluated in the loop body,
so a zero length there would raise ZeroDivisionError; the mutation coin, the
replacement pick and the early-stop coin come from the random streams. -/
def mutateInner (check : String → Bool) (supported : List Char) :
    List Nat → List Char → WalkRng → Except String (List Char × WalkRng)
  | [], cs, rng => .ok (cs, rng)
  | i :: rest, cs, rng =>
    if cs.length = 0 then .error "ZeroDivisionError: division by zero"
    else
      let (mutCoin, rng1) := takeCoin rng
      if mutCoin then
        let (k, rng2) := takeChoice rng1
        let pool := supported.filter (fun c => c ≠ cs.getD i ' ')
        let cs1 := cs.set i (pool.getD (k % pool.length) ' ')
        if check ⟨cs1⟩ = false then
          let (brkCoin, rng3) := takeCoin rng2
          if brkCoin then .ok (cs1, rng3)
          else mutateInner check supported rest cs1 rng3
        else mutateInner check supported rest cs1 rng2
      else mutateInner check supported rest cs rng1

/-- The outer `for _ in range(self._mutation_attempts)` loop (invinpgen.py
line 160, 50 iterations): each iteration sweeps all character positions. -/
def mutateOuter (check : String → Bool) (supported : List Char) :
    Nat → List Char → WalkRng → Except String (List Char × WalkRng)
  | 0, cs, rng => .ok (cs, rng)
  | t + 1, cs, rng =>
    match mutateInner check supported (List.range cs.length) cs rng with
    | .error e => .error e
    | .ok (cs1, rng1) => mutateOuter check supported t cs1 rng1

/-- Python `MutationBasedGenerator._mutate_input(valid_input)` followed by
`generate_unsafe` (invinpgen.py lines 153-186): the valid seed string comes
from the external `exrex.getone(self.regex)` and is a parameter here. -/
def mutationGenerateUnsafe (check : String → Bool) (supported : List Char)
    (valid_input : String) (rng : WalkRng) : Except String String :=
  match mutateOuter check supported 50 valid_input.data rng with
  | .error e => .error e
  | .ok (cs, _) => .ok ⟨cs⟩

/-- On an empty seed the index list is empty, the loop body never runs and
in particular the division is never evaluated: the seed comes back
unchanged. -/
theorem mutateOuter_nil (check : String → Bool) (supported : List Char) :
    ∀ (t : Nat) (rng : WalkRng),
      mutateOuter check supported t [] rng = .ok ([], rng) := by
  intro t
  induction t with
  | zero => intro rng; rfl
  | succ t ih =>
    intro rng
    rw [mutateOuter]
    simp only [List.length_nil, List.range_zero, mutateInner]
    exact ih rng

/-- Python `ValidInputGenerator.generate_many` with the class constants
(`_max_repeats`, `_max_consecutive_failures`, `_max_attempts`) as
parameters; the base class uses 3, 3, 20. -/
def valid_generate_many (check : String → Bool)
    (maxRepeats maxConsec maxAttempts n maxSize : Nat)
    (stream : List (Option String)) : Except String (List String) × GenExit :=
  generate_many (validGenFn check maxRepeats maxConsec maxAttempts)
    maxConsec maxAttempts n maxSize stream

/-- Python `InvalidInputGenerator.generate_many`; `MutationBasedGenerator` raises
`_max_consecutive_failures` to 20 and `MixedGenerator` raises
`_max_attempts` to 50, hence the parameters. -/
def invalid_generate_many (check : String → Bool)
    (maxRepeats maxConsec maxAttempts n maxSize : Nat)
    (stream : List (Option String)) : Except String (List String) × GenExit :=
  generate_many (invalidGenFn check maxRepeats maxConsec maxAttempts)
    maxConsec maxAttempts n maxSize stream

/-- When the reference matcher agrees with the oracle and the target
disagrees on every remaining input, the loop appends every input to the
failed list and ends in FAILED (or SUCCESS when nothing was scanned). -/
theorem harnessLoop_all_mismatch (p s : RunnerModel) (regex : String)
    (inputs : List String) (oracle : Bool) :
    ∀ (rest acc : List String),
      (∀ i ∈ rest, (p.matchRun i).verdict = some oracle) →
      (∀ i ∈ rest, (s.matchRun i).verdict = some (!oracle)) →
      harnessLoop p s regex inputs oracle acc rest =
        if (acc ++ rest).length > 0 then
          ⟨regex, inputs.length, oracle, acc ++ rest, .FAILED, ""⟩
        else
          ⟨regex, inputs.length, oracle, inputs, .SUCCESS, ""⟩ := by
  intro rest
  induction rest with
  | nil =>
    intro acc _ _
    simp [harnessLoop]
  | cons i rest ih =>
    intro acc hp hs
    have hpi := hp i (List.mem_cons_self i rest)
    have hsi := hs i (List.mem_cons_self i rest)
    rw [harnessLoop]
    cases hmp : p.matchRun i with
    | err e => rw [hmp] at hpi; simp [RunOutcome.verdict] at hpi
    | res pstat pstr =>
      rw [hmp] at hpi
      simp only [RunOutcome.verdict, Option.some.injEq] at hpi
      subst hpi
      simp only [ne_eq, not_true_eq_false, if_false, ite_false]
      cases hms : s.matchRun i with
      | err e => rw [hms] at hsi; simp [RunOutcome.verdict] at hsi
      | res sstat sstr =>
        rw [hms] at hsi
        simp only [RunOutcome.verdict, Option.some.injEq] at hsi
        subst hsi
        have hne : (!pstat) ≠ pstat := Bool.not_ne_self pstat
        simp only [ne_eq, hne, not_false_eq_true, if_true, ite_true]
        rw [ih (acc ++ [i]) (fun j hj => hp j (List.mem_cons_of_mem _ hj))
            (fun j hj => hs j (List.mem_cons_of_mem _ hj))]
        simp [List.append_assoc]

/-- Every result the scan loop can return: INVALID_SEED with an empty failed
list, RUN_ERROR with exactly the erroring input, FAILED with a non-empty
failed list, or SUCCESS carrying the full input list. -/
theorem harnessLoop_cases (p s : RunnerModel) (regex : String)
    (inputs : List String) (oracle : Bool) :
    ∀ (rest acc : List String),
      (let r := harnessLoop p s regex inputs oracle acc rest
       (r.status = .INVALID_SEED ∧ r.failed_inputs = []) ∨
       (∃ i, r.status = .RUN_ERROR ∧ r.failed_inputs = [i]) ∨
       (r.status = .FAILED ∧ r.failed_inputs ≠ []) ∨
       (r.status = .SUCCESS ∧ r.failed_inputs = inputs)) := by
  intro rest
  induction rest with
  | nil =>
    intro acc
    simp only [harnessLoop]
    split
    · rename_i hlen
      refine Or.inr (Or.inr (Or.inl ⟨rfl, ?_⟩))
      intro hnil
      simp only at hnil
      rw [hnil] at hlen
      simp at hlen
    · exact Or.inr (Or.inr (Or.inr ⟨rfl, rfl⟩))
  | cons i rest ih =>
    intro acc
    simp only [harnessLoop]
    cases p.matchRun i with
    | err e => exact Or.inl ⟨rfl, rfl⟩
    | res pstat pstr =>
      simp only
      split
      · exact Or.inl ⟨rfl, rfl⟩
      · cases s.matchRun i with
        | err e => exact Or.inr (Or.inl ⟨i, rfl, rfl⟩)
        | res sstat sstr => exact ih _

/-- Scanning a prefix on which the reference matcher agrees with the oracle
and the target does not raise never returns early: the loop continues into
the tail with some accumulated failed list. -/
theorem harnessLoop_skip (p s : RunnerModel) (regex : String)
    (inputs : List String) (oracle : Bool) :
    ∀ (pre rest acc : List String),
      (∀ i ∈ pre, (p.matchRun i).verdict = some oracle) →
      (∀ i ∈ pre, ((s.matchRun i).verdict).isSome = true) →
      ∃ acc', harnessLoop p s regex inputs oracle acc (pre ++ rest)
        = harnessLoop p s regex inputs oracle acc' rest := by
  intro pre
  induction pre with
  | nil => intro rest acc _ _; exact ⟨acc, rfl⟩
  | cons i pre ih =>
    intro rest acc hp hs
    have hpi := hp i (List.mem_cons_self i pre)
    have hsi := hs i (List.mem_cons_self i pre)
    rw [List.cons_append, harnessLoop]
    cases hmp : p.matchRun i with
    | err e => rw [hmp] at hpi; simp [RunOutcome.verdict] at hpi
    | res pstat pstr =>
      rw [hmp] at hpi
      simp only [RunOutcome.verdict, Option.some.injEq] at hpi
      subst hpi
      simp only [ne_eq, not_true_eq_false, if_false, ite_false]
      cases hms : s.matchRun i with
      | err e => rw [hms] at hsi; simp [RunOutcome.verdict] at hsi
      | res sstat sstr =>
        exact ih rest _ (fun j hj => hp j (List.mem_cons_of_mem _ hj))
          (fun j hj => hs j (List.mem_cons_of_mem _ hj))

/-! ## Concrete runners used in witnesses and counterexamples -/

/-- A runner that compiles and reports a match on every input. -/
def runnerAlwaysTrue : RunnerModel := ⟨none, fun _ => .res true "m"⟩

/-- A runner that compiles and reports "no match" on every input. -/
def runnerAlwaysFalse : RunnerModel := ⟨none, fun _ => .res false ""⟩

/-- A runner that compiles, raises `RegexRunError` on input "b" and matches
everything else. -/
def runnerErrOnB : RunnerModel :=
  ⟨none, fun i => if i = "b" then .err "boom" else .res true "z"⟩

/-- A runner that compiles and raises `RegexRunError` on every input. -/
def runnerAlwaysErr : RunnerModel := ⟨none, fun _ => .err "boom"⟩

/-! ## The claims -/

/-- C1: the spec's status enumeration has nine values, but the
`HarnessStatus` enum of harness.py declares only five of them: the four
names `SUBSTR_MISMATCH`, `INPUT_GEN_TIMEOUT`, `HARNESS_TIMEOUT`,
`REGEX_TIMEOUT` are not members, although `Stats.get_stats` (report.py)
accesses all nine and `harness_runtime` (fuzzer.py) accesses the two timeout
names — those attribute accesses raise AttributeError. -/
theorem C1_harness_status_enum_members :
    HarnessStatus.ofName "SUBSTR_MISMATCH" = none ∧
    HarnessStatus.ofName "INPUT_GEN_TIMEOUT" = none ∧
    HarnessStatus.ofName "HARNESS_TIMEOUT" = none ∧
    HarnessStatus.ofName "REGEX_TIMEOUT" = none ∧
    specStatusNames.filter (fun nm => (HarnessStatus.ofName nm).isSome)
      = HarnessStatus.memberNames ∧
    (∃ nm ∈ getStatsAccessedNames, HarnessStatus.ofName nm = none) ∧
    (∀ nm ∈ harnessRuntimeTimeoutNames, HarnessStatus.ofName nm = none) := by
  decide

/-- C2 (amended): a runtime error from the target (secondary) matcher
surfaces as RUN_ERROR with `failed_inputs = [the erroring input]` and aborts
the remaining inputs; a runtime error from the reference (primary) matcher
also aborts immediately but is classified INVALID_SEED, not RUN_ERROR
(harness.py lines 144-153 versus 164-173). -/
theorem C2_run_error_classification (p s : RunnerModel) (regex : String)
    (oracle : Bool) (pre rest : List String) (x e : String)
    (hpc : p.compileError = none) (hsc : s.compileError = none)
    (hpre : ∀ i ∈ pre, (p.matchRun i).verdict = some oracle)
    (hspre : ∀ i ∈ pre, ((s.matchRun i).verdict).isSome = true) :
    (s.matchRun x = .err e → (p.matchRun x).verdict = some oracle →
      harness p s regex (pre ++ x :: rest) oracle
        = ⟨regex, (pre ++ x :: rest).length, oracle, [x], .RUN_ERROR, e⟩) ∧
    (p.matchRun x = .err e →
      harness p s regex (pre ++ x :: rest) oracle
        = ⟨regex, (pre ++ x :: rest).length, oracle, [], .INVALID_SEED, e⟩) := by
  have hloop : ∃ acc', harness p s regex (pre ++ x :: rest) oracle
      = harnessLoop p s regex (pre ++ x :: rest) oracle acc' (x :: rest) := by
    unfold harness
    rw [hpc, hsc]
    exact harnessLoop_skip p s regex (pre ++ x :: rest) oracle pre (x :: rest) [] hpre hspre
  obtain ⟨acc', hacc⟩ := hloop
  constructor
  · intro hserr hpok
    rw [hacc, harnessLoop]
    cases hmp : p.matchRun x with
    | err e2 => rw [hmp] at hpok; simp [RunOutcome.verdict] at hpok
    | res pstat pstr =>
      rw [hmp] at hpok
      simp only [RunOutcome.verdict, Option.some.injEq] at hpok
      subst hpok
      simp only [ne_eq, not_true_eq_false, if_false, ite_false]
      rw [hserr]
  · intro hperr
    rw [hacc, harnessLoop, hperr]

/-- C2 witness: a target that raises on the second input, after a clean
first input, aborts with RUN_ERROR naming only that input. -/
theorem C2_witness :
    harness runnerAlwaysTrue runnerErrOnB "re" (["a"] ++ "b" :: []) true
      = ⟨"re", (["a"] ++ "b" :: []).length, true, ["b"], .RUN_ERROR, "boom"⟩ :=
  (C2_run_error_classification runnerAlwaysTrue runnerErrOnB "re" true ["a"] [] "b" "boom"
    rfl rfl (by decide) (by decide)).1 (by decide) (by decide)

/-- C2 counterexample: when the REFERENCE matcher raises a runtime error the
harness aborts with INVALID_SEED, not RUN_ERROR, refuting "for both
matchers". -/
theorem C2_counterexample :
    (harness runnerAlwaysErr runnerAlwaysTrue "re" ["a"] true).status
        = HarnessStatus.INVALID_SEED ∧
    (harness runnerAlwaysErr runnerAlwaysTrue "re" ["a"] true).status
        ≠ HarnessStatus.RUN_ERROR := by
  decide

/-- C4: with both runners compiling, the reference matcher agreeing with the
oracle everywhere and the target disagreeing everywhere, a non-empty input
list yields FAILED with `failed_inputs` equal to the full input list in
generation order. -/
theorem C4_all_mismatch_failed (p s : RunnerModel) (regex : String)
    (inputs : List String) (oracle : Bool)
    (hne : inputs ≠ [])
    (hpc : p.compileError = none) (hsc : s.compileError = none)
    (hp : ∀ i ∈ inputs, (p.matchRun i).verdict = some oracle)
    (hs : ∀ i ∈ inputs, (s.matchRun i).verdict = some (!oracle)) :
    (harness p s regex inputs oracle).status = HarnessStatus.FAILED ∧
    (harness p s regex inputs oracle).failed_inputs = inputs := by
  unfold harness
  rw [hpc, hsc]
  rw [harnessLoop_all_mismatch p s regex inputs oracle inputs [] hp hs]
  simp only [List.nil_append]
  have hlen : inputs.length > 0 := List.length_pos.2 hne
  rw [if_pos hlen]
  exact ⟨rfl, rfl⟩

/-- C4 witness: a target that always reports "no match" under oracle=True
over two valid inputs fails with the full input list. -/
theorem C4_witness :
    (harness runnerAlwaysTrue runnerAlwaysFalse "re" ["ab", "cd"] true).status
        = HarnessStatus.FAILED ∧
    (harness runnerAlwaysTrue runnerAlwaysFalse "re" ["ab", "cd"] true).failed_inputs
        = ["ab", "cd"] :=
  C4_all_mismatch_failed runnerAlwaysTrue runnerAlwaysFalse "re" ["ab", "cd"] true
    (by decide) rfl rfl (by decide) (by decide)

/-- C9 (amended): a SUCCESS result carries the full input list in
`failed_inputs` (harness.py line 185); `failed_inputs` is empty only for
INVALID_SEED, COMPILE_ERROR, or a SUCCESS over an empty input list. -/
theorem C9_success_failed_inputs (p s : RunnerModel) (regex : String)
    (inputs : List String) (oracle : Bool) :
    ((harness p s regex inputs oracle).status = HarnessStatus.SUCCESS →
      (harness p s regex inputs oracle).failed_inputs = inputs) ∧
    ((harness p s regex inputs oracle).failed_inputs = [] →
      (harness p s regex inputs oracle).status = HarnessStatus.INVALID_SEED ∨
      (harness p s regex inputs oracle).status = HarnessStatus.COMPILE_ERROR ∨
      ((harness p s regex inputs oracle).status = HarnessStatus.SUCCESS ∧ inputs = [])) := by
  unfold harness
  cases hpc : p.compileError with
  | some e => exact ⟨by intro h; simp at h, fun _ => Or.inl rfl⟩
  | none =>
    cases hsc : s.compileError with
    | some e => exact ⟨by intro h; simp at h, fun _ => Or.inr (Or.inl rfl)⟩
    | none =>
      have hc := harnessLoop_cases p s regex inputs oracle inputs []
      simp only at hc
      rcases hc with ⟨hst, hfi⟩ | ⟨i, hst, hfi⟩ | ⟨hst, hfi⟩ | ⟨hst, hfi⟩
      · exact ⟨by rw [hst]; intro h; simp at h, fun _ => Or.inl hst⟩
      · refine ⟨by rw [hst]; intro h; simp at h, ?_⟩
        intro hnil
        rw [hfi] at hnil
        simp at hnil
      · exact ⟨by rw [hst]; intro h; simp at h, fun hnil => absurd hnil hfi⟩
      · refine ⟨fun _ => hfi, ?_⟩
        intro hnil
        rw [hfi] at hnil
        exact Or.inr (Or.inr ⟨hst, hnil⟩)

/-- C9 counterexample: on an empty input list the harness returns SUCCESS
with an empty `failed_inputs`, so emptiness does not single out INVALID_SEED
and COMPILE_ERROR. -/
theorem C9_counterexample :
    (harness runnerAlwaysTrue runnerAlwaysFalse "re" [] true).status
        = HarnessStatus.SUCCESS ∧
    (harness runnerAlwaysTrue runnerAlwaysFalse "re" [] true).failed_inputs = [] ∧
    (harness runnerAlwaysTrue runnerAlwaysFalse "re" [] true).status
        ≠ HarnessStatus.INVALID_SEED ∧
    (harness runnerAlwaysTrue runnerAlwaysFalse "re" [] true).status
        ≠ HarnessStatus.COMPILE_ERROR := by
  decide

/-- C6: whenever the random-walk string synthesis returns a string at all —
including the early empty-string return of dfa.py line 381 — that string is
accepted by the automaton; failure is the explicit `ValueError` of dfa.py
line 504, never a silently returned non-accepted string. -/
theorem C6_walk_returns_accepted (m : NFAModel) (wanted : Nat) (direct : Bool)
    (rng : WalkRng) (s : String)
    (h : dfa_string_matching m wanted direct rng = .ok s) :
    nfaAccepts m s = true := by
  unfold dfa_string_matching at h
  by_cases hfin : inFinal m (lambdaClosure m m.initial_state)
  · simp only [hfin, if_true] at h
    by_cases hc : (takeCoin rng).1
    · simp only [hc, if_true] at h
      injection h with h2
      subst h2
      rw [nfaAccepts_empty]
      exact hfin
    · simp only [hc, if_false, Bool.false_eq_true] at h
      exact walkAttempts_ok m direct _ wanted 5 _ s h
  · simp only [hfin, if_false, Bool.false_eq_true] at h
    exact walkAttempts_ok m direct _ wanted 5 _ s h

/-- The canonical one-state NFA of the pattern `[a-z]*` (`NFA.from_regex` is
the external automata-lib): a single initial, accepting state with a
self-loop on each of the 26 lowercase letters. -/
def azStarNfa : NFAModel where
  states := [0]
  initial_state := 0
  final_states := [0]
  transitions := fun s =>
    if s = 0 then (List.range 26).map (fun k => (Char.ofNat (97 + k), [0])) else []
  lambdaTransitions := fun _ => []

/-- C6 witness: on the `[a-z]*` automaton, whose initial closure is
accepting, a walk whose first coin fires takes the early return and yields
the empty string, which the automaton accepts. -/
theorem C6_witness :
    dfa_string_matching azStarNfa 50 true ⟨[true], []⟩ = Except.ok "" ∧
    nfaAccepts azStarNfa "" = true :=
  ⟨rfl, C6_walk_returns_accepted azStarNfa 50 true ⟨[true], []⟩ "" rfl⟩

/-- C7 (spec-modelled): every strategy of single-accept normalization
returns a DFA with exactly one accepting state — which moreover is one of
the result's states — for every input DFA with at least one accepting
state whose accepting states and initial state are states. -/
theorem C7_normalize_single_accepting (d : DFAModel) (strategy : NormalizeStrategy)
    (choice : Nat)
    (hne : 1 ≤ d.final_states.length)
    (hfin : ∀ f ∈ d.final_states, f ∈ d.states)
    (hinit : d.initial_state ∈ d.states) :
    (transform_dfa_to_single_accepting_state d strategy choice).final_states.length = 1 ∧
    ∀ f ∈ (transform_dfa_to_single_accepting_state d strategy choice).final_states,
      f ∈ (transform_dfa_to_single_accepting_state d strategy choice).states := by
  cases strategy with
  | pick_one =>
    refine ⟨rfl, ?_⟩
    intro f hf
    have hlt : choice % d.final_states.length < d.final_states.length :=
      Nat.mod_lt _ (by omega)
    have hmem : d.final_states.getD (choice % d.final_states.length) d.initial_state
        ∈ d.final_states := by
      rw [List.getD_eq_getElem d.final_states d.initial_state hlt]
      exact List.getElem_mem hlt
    simp only [transform_dfa_to_single_accepting_state, List.mem_singleton] at hf
    subst hf
    simp only [transform_dfa_to_single_accepting_state, List.mem_filter]
    exact ⟨hfin _ hmem, by simp⟩
  | new_dummy =>
    refine ⟨rfl, ?_⟩
    intro f hf
    simp only [transform_dfa_to_single_accepting_state, List.mem_singleton] at hf
    subst hf
    simp [transform_dfa_to_single_accepting_state]
  | merge =>
    refine ⟨rfl, ?_⟩
    intro f hf
    have hmem : (if d.initial_state ∈ d.final_states then d.initial_state
        else d.final_states.getD 0 d.initial_state) ∈ d.states := by
      split
      · exact hinit
      · have hlt : 0 < d.final_states.length := by omega
        rw [List.getD_eq_getElem d.final_states d.initial_state hlt]
        exact hfin _ (List.getElem_mem hlt)
    simp only [transform_dfa_to_single_accepting_state, List.mem_singleton] at hf
    subst hf
    simp only [transform_dfa_to_single_accepting_state, List.mem_filter]
    exact ⟨hmem, by simp⟩

/-- A two-accepting-state DFA used to witness normalization. -/
def dfaTwoFinals : DFAModel :=
  ⟨[0, 1, 2], ['a'], fun _ _ => none, 0, [1, 2]⟩

/-- C7 witness: all three strategies collapse a DFA with two accepting
states to exactly one. -/
theorem C7_witness :
    1 ≤ dfaTwoFinals.final_states.length ∧
    (transform_dfa_to_single_accepting_state dfaTwoFinals .pick_one 0).final_states.length
      = 1 ∧
    (transform_dfa_to_single_accepting_state dfaTwoFinals .new_dummy 0).final_states.length
      = 1 ∧
    (transform_dfa_to_single_accepting_state dfaTwoFinals .merge 0).final_states.length
      = 1 :=
  ⟨by decide,
   (C7_normalize_single_accepting dfaTwoFinals .pick_one 0 (by decide) (by decide)
     (by decide)).1,
   (C7_normalize_single_accepting dfaTwoFinals .new_dummy 0 (by decide) (by decide)
     (by decide)).1,
   (C7_normalize_single_accepting dfaTwoFinals .merge 0 (by decide) (by decide)
     (by decide)).1⟩

/-- Every string a successful valid `generate_many` returns passed the
`check_if_string_is_valid` oracle check and the minimum-length filter of
vinpgen.py line 101. -/
theorem valid_generate_many_ok_mem (check : String → Bool)
    (maxRepeats maxConsec maxAttempts n maxSize : Nat)
    (stream : List (Option String)) (l : List String)
    (hok : (valid_generate_many check maxRepeats maxConsec maxAttempts n maxSize stream).1
      = .ok l) :
    ∀ x ∈ l, check x = true ∧ 1 < x.length := by
  rcases hL : generateManyLoop (validGenFn check maxRepeats maxConsec maxAttempts)
      maxConsec n maxSize (n + maxAttempts) 0 stream [] [] with ⟨l2, ex⟩
  unfold valid_generate_many generate_many at hok
  rw [hL] at hok
  simp only at hok
  split at hok
  · simp at hok
  · injection hok with hok
    subst hok
    have hmem := generateManyLoop_mem (validGenFn check maxRepeats maxConsec maxAttempts)
      maxConsec n maxSize (fun t => check t = true ∧ 1 < t.length)
      (fun st c s st' c' hrun _ =>
        ⟨(validGenerate_ok_spec check maxRepeats maxConsec _ _ _ _ _ _ _ hrun).1,
         (validGenerate_ok_spec check maxRepeats maxConsec _ _ _ _ _ _ _ hrun).2.1⟩)
      (n + maxAttempts) 0 stream [] []
      (fun y hy => absurd hy (List.not_mem_nil y))
    intro x hx
    have := hmem x
    rw [hL] at this
    exact this hx

/-- Every string a successful invalid `generate_many` returns fails the
`check_if_string_is_valid` oracle check (invinpgen.py line 62). -/
theorem invalid_generate_many_ok_mem (check : String → Bool)
    (maxRepeats maxConsec maxAttempts n maxSize : Nat)
    (stream : List (Option String)) (l : List String)
    (hok : (invalid_generate_many check maxRepeats maxConsec maxAttempts n maxSize stream).1
      = .ok l) :
    ∀ x ∈ l, check x = false := by
  rcases hL : generateManyLoop (invalidGenFn check maxRepeats maxConsec maxAttempts)
      maxConsec n maxSize (n + maxAttempts) 0 stream [] [] with ⟨l2, ex⟩
  unfold invalid_generate_many generate_many at hok
  rw [hL] at hok
  simp only at hok
  split at hok
  · simp at hok
  · injection hok with hok
    subst hok
    have hmem := generateManyLoop_mem (invalidGenFn check maxRepeats maxConsec maxAttempts)
      maxConsec n maxSize (fun t => check t = false)
      (fun st c s st' c' hrun _ =>
        (invalidGenerate_ok_spec check maxRepeats maxConsec _ _ _ _ _ _ _ hrun).1)
      (n + maxAttempts) 0 stream [] []
      (fun y hy => absurd hy (List.not_mem_nil y))
    intro x hx
    have := hmem x
    rw [hL] at this
    exact this hx

/-- C3 (amended): the per-string oracle check is real, but it is
`check_if_string_is_valid` — `len(re.findall(regex, s)) > 0`, a match
ANYWHERE in the string — not the start-anchored `re.match` verdict of the
`PythonReRunner` primary runner.  Every valid-generator string passes that
findall check and every invalid-generator string fails it; failing it
implies rejection by the primary runner (given that a start-anchored match
is an occurrence), but passing it does not imply acceptance. -/
theorem C3_generator_oracle_check (check primaryAcc : String → Bool)
    (maxRepeats maxConsec maxAttempts n maxSize : Nat)
    (stream : List (Option String))
    (hmono : ∀ t, primaryAcc t = true → check t = true) :
    (∀ l, (valid_generate_many check maxRepeats maxConsec maxAttempts n maxSize stream).1
        = .ok l → ∀ x ∈ l, check x = true) ∧
    (∀ l, (invalid_generate_many check maxRepeats maxConsec maxAttempts n maxSize stream).1
        = .ok l → ∀ x ∈ l, check x = false ∧ primaryAcc x = false) := by
  constructor
  · intro l hok x hx
    exact (valid_generate_many_ok_mem check maxRepeats maxConsec maxAttempts n maxSize
      stream l hok x hx).1
  · intro l hok x hx
    have hcf := invalid_generate_many_ok_mem check maxRepeats maxConsec maxAttempts n maxSize
      stream l hok x hx
    refine ⟨hcf, ?_⟩
    cases hpa : primaryAcc x
    · rfl
    · exact absurd (hmono x hpa) (by simp [hcf])

/-- C3 witness: instantiated at the literal pattern "b", whose findall check
is substring occurrence and whose primary-runner verdict is prefix match. -/
theorem C3_witness :
    (∀ l, (valid_generate_many (check_if_string_is_valid_lit "b") 3 3 20 1 5
        [some "ab"]).1 = .ok l → ∀ x ∈ l, check_if_string_is_valid_lit "b" x = true) ∧
    (∀ l, (invalid_generate_many (check_if_string_is_valid_lit "b") 3 3 20 1 5
        [some "ab"]).1 = .ok l → ∀ x ∈ l, check_if_string_is_valid_lit "b" x = false ∧
        pythonReMatch_lit "b" x = false) :=
  C3_generator_oracle_check (check_if_string_is_valid_lit "b") (pythonReMatch_lit "b")
    3 3 20 1 5 [some "ab"] (pythonReMatch_lit_implies_check "b")

/-- C3 counterexample: on the literal pattern "b" the valid generator
happily returns "ab" (the pattern occurs in it, so `re.findall` is
non-empty), yet the start-anchored reference matcher of the harness rejects
"ab" — so a valid generator's output is NOT always accepted by the
reference matcher. -/
theorem C3_counterexample :
    (valid_generate_many (check_if_string_is_valid_lit "b") 3 3 20 1 5 [some "ab"]).1
      = .ok ["ab"] ∧
    pythonReMatch_lit "b" "ab" = false := by
  constructor
  · have hloop : generateManyLoop (validGenFn (check_if_string_is_valid_lit "b") 3 3 20)
        3 1 5 (1 + 20) 0 [some "ab"] [] [] = (["ab"], GenExit.collected) := by
      rw [show (1 : Nat) + 20 = 20 + 1 from rfl]
      rw [generateManyLoop_succ _ _ _ _ _ _ _ _ _
        (show ¬ ((1 : Nat) ≤ ([] : List String).length) from by decide)]
      rw [show (validGenFn (check_if_string_is_valid_lit "b") 3 3 20).run [some "ab"] []
          = ((Except.ok "ab" : Except GenErr String), ([] : List (Option String)),
             ([("ab", 1)] : StringCounts)) from rfl]
      simp only
      rw [if_neg (show ¬ ((5 : Nat) ≠ 0 ∧ 5 < "ab".length) from by decide)]
      rw [generateManyLoop_collected _ _ _ _ _ _ _ _ _
        (show (1 : Nat) ≤ (([] : List String) ++ ["ab"]).length from by decide)]
      simp
    unfold valid_generate_many generate_many
    rw [hloop]
    rfl
  · decide

/-- C5: `generate_many(n, maxSize)` returns at most `n` strings, all of
length at most `maxSize`; it returns fewer than `n` only when the attempt
ceiling (`n` plus the `_max_attempts` constant) or the consecutive-failure /
repeated-string breaks ended the loop; and it raises the hard `ValueError`
exactly when the loop produced nothing. -/
theorem C5_generate_many_bounds (gen : GenFn) (maxConsec maxAttempts n maxSize : Nat)
    (stream : List (Option String)) (hn : 1 ≤ n) (hms : 1 ≤ maxSize) :
    (match generate_many gen maxConsec maxAttempts n maxSize stream with
     | (.ok l, ex) =>
         l ≠ [] ∧ l.length ≤ n ∧ (∀ x ∈ l, x.length ≤ maxSize) ∧
         (l.length < n → ex ≠ GenExit.collected)
     | (.error _, _) =>
         (generateManyLoop gen maxConsec n maxSize (n + maxAttempts) 0 stream [] []).1
           = []) := by
  rcases hL : generateManyLoop gen maxConsec n maxSize (n + maxAttempts) 0 stream [] []
    with ⟨l2, ex⟩
  have hgm : generate_many gen maxConsec maxAttempts n maxSize stream
      = (if l2.isEmpty then .error "Failed to generate any input for regex" else .ok l2,
         ex) := by
    unfold generate_many
    rw [hL]
  rw [hgm]
  by_cases he : l2.isEmpty
  · rw [if_pos he]
    show (l2, ex).1 = []
    exact List.isEmpty_iff.mp he
  · rw [if_neg he]
    show l2 ≠ [] ∧ l2.length ≤ n ∧ (∀ x ∈ l2, x.length ≤ maxSize) ∧
      (l2.length < n → ex ≠ GenExit.collected)
    refine ⟨by simpa using he, ?_, ?_, ?_⟩
    · have := generateManyLoop_length_le gen maxConsec n maxSize (n + maxAttempts) 0
        stream [] [] (by simp)
      rw [hL] at this
      exact this
    · have hmem := generateManyLoop_mem gen maxConsec n maxSize
        (fun t => t.length ≤ maxSize)
        (fun st c s st' c' _ hnot => by
          by_contra hgt
          exact hnot ⟨by omega, by omega⟩)
        (n + maxAttempts) 0 stream [] []
        (fun y hy => absurd hy (List.not_mem_nil y))
      intro x hx
      have := hmem x
      rw [hL] at this
      exact this hx
    · intro hlen hcol
      have := generateManyLoop_short_exit gen maxConsec n maxSize (n + maxAttempts) 0
        stream [] []
      rw [hL] at this
      simp only at this
      have := this hcol
      omega

/-- C5 witness: a generator whose single candidate "ab" passes the check
satisfies every part of the bound at `n = 1`, `maxSize = 5`. -/
theorem C5_witness :
    (1 : Nat) ≤ 1 ∧ (1 : Nat) ≤ 5 ∧
    (match generate_many (validGenFn (fun _ => true) 3 3 20) 3 20 1 5 [some "ab"] with
     | (.ok l, ex) =>
         l ≠ [] ∧ l.length ≤ 1 ∧ (∀ x ∈ l, x.length ≤ 5) ∧
         (l.length < 1 → ex ≠ GenExit.collected)
     | (.error _, _) =>
         (generateManyLoop (validGenFn (fun _ => true) 3 3 20) 3 1 5 (1 + 20) 0
           [some "ab"] [] []).1 = []) :=
  ⟨le_refl 1, by omega,
   C5_generate_many_bounds (validGenFn (fun _ => true) 3 3 20) 3 20 1 5 [some "ab"]
     (le_refl 1) (by omega)⟩

/-- C8 (amended): on the `[a-z]*` automaton the random walk itself can
return the empty string (the initial state is accepting), but the valid
generation loop of vinpgen.py line 101 skips every string of length ≤ 1, so
no `generate_many` result — for any request count — ever contains the empty
string. -/
theorem C8_walk_empty_but_filtered :
    dfa_string_matching azStarNfa 50 true ⟨[true], []⟩ = Except.ok "" ∧
    ∀ (check : String → Bool) (maxRepeats maxConsec maxAttempts n maxSize : Nat)
      (stream : List (Option String)) (l : List String),
      (valid_generate_many check maxRepeats maxConsec maxAttempts n maxSize stream).1
        = .ok l →
      (∀ x ∈ l, 1 < x.length) ∧ "" ∉ l := by
  refine ⟨rfl, ?_⟩
  intro check maxRepeats maxConsec maxAttempts n maxSize stream l hok
  have hall : ∀ x ∈ l, 1 < x.length := fun x hx =>
    (valid_generate_many_ok_mem check maxRepeats maxConsec maxAttempts n maxSize
      stream l hok x hx).2
  refine ⟨hall, ?_⟩
  intro hmem
  have := hall "" hmem
  simp at this

/-- The C8 claim as stated: some execution of the valid generator's
`generate_many` requesting 10 inputs returns a list containing the empty
string (quantifying over every oracle check, so in particular the `[a-z]*`
one, and every stream of walk outputs). -/
def c8ClaimProp : Prop :=
  ∃ (check : String → Bool) (maxRepeats maxConsec maxAttempts maxSize : Nat)
    (stream : List (Option String)) (l : List String),
    (valid_generate_many check maxRepeats maxConsec maxAttempts 10 maxSize stream).1
      = .ok l ∧ "" ∈ l

/-- C8 counterexample: no execution of `generate_many` requesting 10 inputs
can include the empty string — vinpgen.py line 101 discards every candidate
of length ≤ 1 before the oracle check. -/
theorem C8_counterexample : ¬ c8ClaimProp := by
  rintro ⟨check, maxRepeats, maxConsec, maxAttempts, maxSize, stream, l, hok, hmem⟩
  have := (valid_generate_many_ok_mem check maxRepeats maxConsec maxAttempts 10 maxSize
    stream l hok "" hmem).2
  simp at this

/-- C10 (amended): the per-character mutation probability
`(1 / len(invalid_input)) * 2` is evaluated only inside the loop over the
seed's character positions, so for an empty synthesized seed the loop body
never runs, no division happens, and `generate_unsafe` returns the empty
string unchanged instead of raising ZeroDivisionError. -/
theorem C10_empty_seed_mutation (check : String → Bool) (supported : List Char)
    (rng : WalkRng) :
    mutationGenerateUnsafe check supported "" rng = .ok "" := by
  unfold mutationGenerateUnsafe
  rw [show ("" : String).data = [] from rfl, mutateOuter_nil check supported 50 rng]

/-- C10 counterexample: at the concrete empty seed the mutation-based
`generate_unsafe` returns the empty string; it does not raise the
division-by-zero error the claim predicts. -/
theorem C10_counterexample :
    mutationGenerateUnsafe (fun _ => false) ['a'] "" ⟨[], []⟩ = .ok "" ∧
    mutationGenerateUnsafe (fun _ => false) ['a'] "" ⟨[], []⟩
      ≠ .error "ZeroDivisionError: division by zero" := by
  constructor
  · rfl
  · intro h
    rw [show mutationGenerateUnsafe (fun _ => false) ['a'] "" ⟨[], []⟩
        = (.ok "" : Except String String) from rfl] at h
    exact Except.noConfusion h
